import Mathlib

/-!
Verification of the user-evict-leader scheduler plugin (evict leader
scheduler of the pd repository).

The development shallowly embeds the scheduler's data model and operations:

* `KeyRange`, `Targets` — the `StoreIDWitRanges` map (store ID → key ranges),
  modelled as an association list with Go-map update/delete/lookup semantics;
* `parseUint64`, `queryUnescape`, `getKeyRanges`, `BuildWithArgs` — the
  argument-parsing pipeline of `evictLeaderSchedulerConfig`;
* `SchedState`, `updateConfig`, `deleteConfig` — the HTTP control-plane
  handlers, with explicit logs of Pause/ResumeLeaderTransfer calls and of
  durable persistence;
* `Schedule`, `IsScheduleAllowed`, `PrepareConfig`, `CleanConfig`,
  `getRanges`, `Clone`, `Persist`, `EncodeConfig` — the scheduler lifecycle
  operations, with the cluster and the operator controller abstracted as
  oracles.
-/

/-- A key range `[start, end)`; empty strings denote open-ended bounds.
Mirrors `keyutil.KeyRange` as constructed by `keyutil.NewKeyRange`. -/
structure KeyRange where
  startKey : String
  endKey : String
deriving DecidableEq

/-- The `StoreIDWitRanges` map: store ID → configured key ranges, as an
association list whose keys are unique in any reachable state. -/
abbrev Targets := List (Nat × List KeyRange)

/-- Go map read `m[id]` (the `ok` part of the two-valued read). -/
def lookupT : Targets → Nat → Option (List KeyRange)
  | [], _ => none
  | (k, v) :: rest, id => if k = id then some v else lookupT rest id

/-- Go map write `m[id] = rs`: replaces the binding in place if present,
otherwise adds it. -/
def setT : Targets → Nat → List KeyRange → Targets
  | [], id, rs => [(id, rs)]
  | (k, v) :: rest, id, rs =>
      if k = id then (id, rs) :: rest else (k, v) :: setT rest id rs

/-- Go `delete(m, id)`: removes the binding for `id` if present. -/
def delT : Targets → Nat → Targets
  | [], _ => []
  | (k, v) :: rest, id =>
      if k = id then delT rest id else (k, v) :: delT rest id

/-- Decimal digit character, used by `formatUint`. -/
def digitChar (d : Nat) : Char := Char.ofNat (48 + d)

/-- Digit characters of `n` in base 10, most significant first; the fuel
argument bounds the recursion. -/
def formatUintAux : Nat → Nat → List Char
  | 0, _ => []
  | fuel + 1, n =>
      if n < 10 then [digitChar n]
      else formatUintAux fuel (n / 10) ++ [digitChar (n % 10)]

/-- `strconv.FormatUint(n, 10)`. -/
def formatUint (n : Nat) : String := ⟨formatUintAux (n + 1) n⟩

/-- Whether a character is a decimal digit. -/
def isDigit (c : Char) : Bool := decide ('0' ≤ c) && decide (c ≤ '9')

/-- Value of a big-endian decimal digit string. -/
def digitsVal (cs : List Char) : Nat :=
  cs.foldl (fun a c => a * 10 + (c.toNat - 48)) 0

/-- `strconv.ParseUint(s, 10, 64)`: fails on the empty string, on any
non-digit character (including signs), and on overflow past `2^64 - 1`. -/
def parseUint64 (s : String) : Option Nat :=
  if s.data.isEmpty then none
  else if s.data.all isDigit then
    if digitsVal s.data < 2 ^ 64 then some (digitsVal s.data) else none
  else none

/-- Value of a hexadecimal digit character, `none` if not one. -/
def hexVal (c : Char) : Option Nat :=
  if '0' ≤ c ∧ c ≤ '9' then some (c.toNat - 48)
  else if 'a' ≤ c ∧ c ≤ 'f' then some (c.toNat - 87)
  else if 'A' ≤ c ∧ c ≤ 'F' then some (c.toNat - 55)
  else none

/-- Character-level core of `url.QueryUnescape`: `%XY` with two hex digits
decodes to the corresponding code point, a `%` not followed by two hex
digits is an error, `+` decodes to a space. -/
def unescapeAux : List Char → Option (List Char)
  | [] => some []
  | '%' :: a :: b :: rest =>
      match hexVal a, hexVal b, unescapeAux rest with
      | some ha, some hb, some tail => some (Char.ofNat (16 * ha + hb) :: tail)
      | _, _, _ => none
  | '%' :: _ => none
  | '+' :: rest => (unescapeAux rest).map (' ' :: ·)
  | c :: rest => (unescapeAux rest).map (c :: ·)

/-- `url.QueryUnescape`. -/
def queryUnescape (s : String) : Option String :=
  (unescapeAux s.data).map fun cs => ⟨cs⟩

/-- The `for len(args) > 1` loop of `getKeyRanges`: consume arguments two at
a time as an unescaped `(startKey, endKey)` pair; a single leftover argument
is dropped. -/
def getKeyRangesAux : List String → Option (List KeyRange)
  | a :: b :: rest =>
      match queryUnescape a, queryUnescape b, getKeyRangesAux rest with
      | some s, some e, some tail => some (⟨s, e⟩ :: tail)
      | _, _, _ => none
  | _ => some []

/-- `getKeyRanges`: decode pairs; if no complete pair was supplied, return
the single whole-keyspace sentinel range. -/
def getKeyRanges (args : List String) : Option (List KeyRange) :=
  (getKeyRangesAux args).map fun rs => if rs.isEmpty then [⟨"", ""⟩] else rs

/-- `evictLeaderSchedulerConfig.BuildWithArgs`, as a map transformer: each
early error return leaves the map untouched; only after the store ID parses
and every range decodes is the store's entry replaced. The Bool is `true`
on success, `false` when an error is returned. -/
def BuildWithArgs (m : Targets) (args : List String) : Targets × Bool :=
  match args with
  | [] => (m, false)
  | a0 :: rest =>
    match parseUint64 a0 with
    | none => (m, false)
    | some id =>
      match getKeyRanges rest with
      | none => (m, false)
      | some rs => (setT m id rs, true)

/-- Handler-level state: the in-memory targets map, the logs of issued
`PauseLeaderTransfer` / `ResumeLeaderTransfer` calls (store IDs in call
order, failed calls included), the durably persisted snapshot (`none` if
nothing was ever saved), and the number of attempted saves. -/
structure SchedState where
  targets : Targets
  pauseLog : List Nat
  resumeLog : List Nat
  persisted : Option Targets
  persistCalls : Nat
deriving DecidableEq

/-- The state of a freshly constructed scheduler: empty config, no
collaborator calls, nothing persisted. -/
def initState : SchedState := ⟨[], [], [], none, 0⟩

/-- `evictLeaderSchedulerConfig.Persist`: serializes the current map and
attempts `SaveSchedulerConfig`; the oracle `persistOk` is the storage
collaborator's verdict. On failure the durable snapshot is unchanged. -/
def Persist (persistOk : Bool) (st : SchedState) : SchedState × Bool :=
  ({ st with
      persisted := if persistOk then some st.targets else st.persisted,
      persistCalls := st.persistCalls + 1 }, persistOk)

/-- `evictLeaderSchedulerConfig.Clone`: returns the config sharing the same
map value; no state change. -/
def Clone (st : SchedState) : Targets × SchedState := (st.targets, st)

/-- `evictLeaderScheduler.EncodeConfig`: serializes the config (modelled as
the map value itself); no state change. -/
def EncodeConfig (st : SchedState) : Targets × SchedState := (st.targets, st)

/-- `evictLeaderSchedulerConfig.getRanges`: flatten a store's ranges into
alternating start/end strings; a Go map read of an absent key yields the
zero value (empty slice) without inserting anything. -/
def flattenRanges : List KeyRange → List String
  | [] => []
  | r :: rest => r.startKey :: r.endKey :: flattenRanges rest

/-- `evictLeaderSchedulerConfig.getRanges` as a state operation. -/
def getRanges (st : SchedState) (id : Nat) : List String × SchedState :=
  (flattenRanges ((lookupT st.targets id).getD []), st)

/-- Outcome of `evictLeaderHandler.updateConfig`, one constructor per HTTP
response site: `ok` (200), `pauseErr` (500, pause failed), `buildErr`
(400, `BuildWithArgs` failed), `persistErr` (500, durable save failed). -/
inductive UpdateResult where
  | ok | pauseErr | buildErr | persistErr
deriving DecidableEq

/-- The decoded JSON body of a `POST /config` request: an optional numeric
`store_id` (already cast to an integer) and an optional `ranges` array. -/
structure UpdateInput where
  storeId : Option Nat
  ranges : Option (List String)

/-- The argument list built by `updateConfig` after the (optional) store-id
element: the request's `ranges` if present, else the store's current
flattened ranges when it already existed, else nothing. -/
def updateArgsTail (inp : UpdateInput) (ex : Bool) (id : Nat) (m : Targets) :
    List String :=
  match inp.ranges with
  | some rs => rs
  | none => if ex then flattenRanges ((lookupT m id).getD []) else []

/-- The tail of `updateConfig` after the pause block: `BuildWithArgs`, then
`Persist`; on build failure resume `id` and answer 400; on persist failure
delete the entry for `id`, resume `id`, and answer 500. -/
def updateFinish (id : Nat) (args : List String) (persistOk : Bool)
    (st : SchedState) : SchedState × UpdateResult :=
  let b := BuildWithArgs st.targets args
  if b.2 then
    let p := Persist persistOk { st with targets := b.1 }
    if p.2 then (p.1, .ok)
    else ({ p.1 with
              targets := delT p.1.targets id,
              resumeLog := p.1.resumeLog ++ [id] }, .persistErr)
  else ({ st with resumeLog := st.resumeLog ++ [id] }, .buildErr)

/-- `evictLeaderHandler.updateConfig`. When `store_id` is present and not
yet configured, a `PauseLeaderTransfer` call is issued first (its success
given by the `pauseOk` oracle; on failure the handler aborts with 500).
When `store_id` is absent, `id` stays at its zero value. -/
def updateConfig (inp : UpdateInput) (pauseOk persistOk : Bool)
    (st : SchedState) : SchedState × UpdateResult :=
  match inp.storeId with
  | none => updateFinish 0 (updateArgsTail inp false 0 st.targets) persistOk st
  | some id =>
    let ex := (lookupT st.targets id).isSome
    if ex then
      updateFinish id (formatUint id :: updateArgsTail inp true id st.targets)
        persistOk st
    else
      let st1 := { st with pauseLog := st.pauseLog ++ [id] }
      if pauseOk then
        updateFinish id (formatUint id :: updateArgsTail inp false id st.targets)
          persistOk st1
      else (st1, .pauseErr)

/-- Outcome of `evictLeaderHandler.deleteConfig`, one constructor per HTTP
response site: `parseErr` (400), `notFound` (500, "the config does not
exist"), `persistErr` (500), `okEmpty` (200 with the informational
"no store" payload), `ok` (200). -/
inductive DeleteResult where
  | parseErr | notFound | persistErr | okEmpty | ok
deriving DecidableEq

/-- `evictLeaderHandler.deleteConfig`: parse the path parameter, require the
entry to exist, delete it, resume the store, persist; on persist failure
restore the entry and re-pause (the pause error being discarded). -/
def deleteConfig (idStr : String) (persistOk : Bool) (st : SchedState) :
    SchedState × DeleteResult :=
  match parseUint64 idStr with
  | none => (st, .parseErr)
  | some id =>
    match lookupT st.targets id with
    | none => (st, .notFound)
    | some ranges =>
      let st1 := { st with
                     targets := delT st.targets id,
                     resumeLog := st.resumeLog ++ [id] }
      let p := Persist persistOk st1
      if p.2 then (p.1, if p.1.targets.isEmpty then .okEmpty else .ok)
      else ({ p.1 with
                targets := setT p.1.targets id ranges,
                pauseLog := p.1.pauseLog ++ [id] }, .persistErr)

/-- `evictLeaderScheduler.IsScheduleAllowed`: `opCount` is the operator
controller's in-flight leader-operator count, `limit` the cluster's
leader-schedule limit, `counter` the rejection counter for this scheduler
type and the leader operator class. Returns the verdict and the counter. -/
def IsScheduleAllowed (opCount limit counter : Nat) : Bool × Nat :=
  let allowed := decide (opCount < limit)
  if !allowed then (allowed, counter + 1) else (allowed, counter)

/-- Execution priority of an emitted operator. -/
inductive OpPriority where
  | low | medium | high | urgent
deriving DecidableEq

/-- A leader-transfer operator as emitted by `Schedule`. -/
structure TransferOp where
  regionId : Nat
  targetStore : Nat
  priority : OpPriority
deriving DecidableEq

/-- The cluster-side collaborators used by one `Schedule` tick:
`selectRegion id ranges` is `SelectOneRegion(RandLeaderRegions(id, ranges),
pendingFilter, downFilter)` (the region ID, or `none`); `pickTarget region`
is the filtered-follower `RandomPick`; `createOk region target` is whether
`CreateTransferLeaderOperator` succeeds. -/
structure ClusterOracle where
  selectRegion : Nat → List KeyRange → Option Nat
  pickTarget : Nat → Option Nat
  createOk : Nat → Nat → Bool

/-- One iteration of the `Schedule` loop for one configured store: region
selection, target selection, operator construction; any failure skips the
store. A created operator is tagged priority High and paired with the store
it was emitted for. -/
def yieldOp (orc : ClusterOracle) (p : Nat × List KeyRange) :
    Option (Nat × TransferOp) :=
  match orc.selectRegion p.1 p.2 with
  | none => none
  | some region =>
    match orc.pickTarget region with
    | none => none
    | some target =>
      if orc.createOk region target then some (p.1, ⟨region, target, .high⟩)
      else none

/-- `evictLeaderScheduler.Schedule`: one tick over all configured stores;
returns the emitted operators (each paired with its source store) and the
unchanged state. The Go function returns a nil plan list and no error. -/
def Schedule (orc : ClusterOracle) (st : SchedState) :
    List (Nat × TransferOp) × SchedState :=
  (st.targets.filterMap (yieldOp orc), st)

/-- The loop of `evictLeaderScheduler.PrepareConfig`: pause every configured
store in iteration order, keeping the last error (`pauseErr id` is the
collaborator's verdict for store `id`). -/
def prepareLoop (pauseErr : Nat → Option String) :
    List (Nat × List KeyRange) → SchedState → Option String →
    SchedState × Option String
  | [], st, res => (st, res)
  | (id, _) :: rest, st, res =>
      prepareLoop pauseErr rest { st with pauseLog := st.pauseLog ++ [id] }
        (match pauseErr id with
         | some e => some e
         | none => res)

/-- `evictLeaderScheduler.PrepareConfig`. -/
def PrepareConfig (pauseErr : Nat → Option String) (st : SchedState) :
    SchedState × Option String :=
  prepareLoop pauseErr st.targets st none

/-- The loop of `evictLeaderScheduler.CleanConfig`: resume every configured
store, errors ignored. -/
def cleanLoop : List (Nat × List KeyRange) → SchedState → SchedState
  | [], st => st
  | (id, _) :: rest, st =>
      cleanLoop rest { st with resumeLog := st.resumeLog ++ [id] }

/-- `evictLeaderScheduler.CleanConfig`. -/
def CleanConfig (st : SchedState) : SchedState := cleanLoop st.targets st

/-- A control-plane operation on a fixed store ID `S`, together with its
collaborator oracles: an update request (with its optional `ranges` body
field) or a delete request. -/
inductive EvictOp where
  | update (ranges : Option (List String)) (pauseOk persistOk : Bool)
  | delete (persistOk : Bool)
deriving DecidableEq

/-- Apply one control-plane operation for store `S`. -/
def stepOp (S : Nat) (st : SchedState) : EvictOp → SchedState
  | .update rs pOk perOk => (updateConfig ⟨some S, rs⟩ pOk perOk st).1
  | .delete perOk => (deleteConfig (formatUint S) perOk st).1

/-- Run a sequence of control-plane operations for store `S`. -/
def runOps (S : Nat) (st : SchedState) : List EvictOp → SchedState
  | [] => st
  | op :: ops => runOps S (stepOp S st op) ops

/-- An operation is *symmetric-safe* in a state when it avoids the two code
paths that issue an unmatched collaborator call: a pause call that fails
(the handler aborts with the call already issued), and a `BuildWithArgs`
failure on a store that was already configured (the handler issues a resume
that no pause of its own matches). -/
def goodStep (S : Nat) (st : SchedState) : EvictOp → Bool
  | .update rs pOk perOk =>
      ((lookupT st.targets S).isSome || pOk) &&
      (!(lookupT st.targets S).isSome ||
        decide ((updateConfig ⟨some S, rs⟩ pOk perOk st).2 ≠ .buildErr))
  | .delete _ => true

/-- Every operation of the sequence is symmetric-safe in the state it runs
in. -/
def goodTrace (S : Nat) (st : SchedState) : List EvictOp → Bool
  | [] => true
  | op :: ops => goodStep S st op && goodTrace S (stepOp S st op) ops


/-- Specification of `PrepareConfig`'s error accumulation: the error of the
last store (in iteration order) whose pause call failed, `none` if every
pause call succeeded. -/
def lastError (pauseErr : Nat → Option String) : List Nat → Option String
  | [] => none
  | id :: rest =>
      match lastError pauseErr rest with
      | some e => some e
      | none => pauseErr id

theorem lookupT_setT_self (m : Targets) (id : Nat) (rs : List KeyRange) :
    lookupT (setT m id rs) id = some rs := by
  induction m with
  | nil => simp [setT, lookupT]
  | cons p rest ih =>
    obtain ⟨k, v⟩ := p
    by_cases hk : k = id
    · simp [setT, hk, lookupT]
    · simp [setT, hk, lookupT, ih]

theorem lookupT_setT_ne {k id : Nat} (m : Targets) (rs : List KeyRange)
    (h : k ≠ id) : lookupT (setT m id rs) k = lookupT m k := by
  have h' : id ≠ k := Ne.symm h
  induction m with
  | nil => simp [setT, lookupT, h']
  | cons p rest ih =>
    obtain ⟨k', v⟩ := p
    by_cases hk : k' = id
    · subst hk
      simp [setT, lookupT, h']
    · by_cases hk2 : k' = k
      · subst hk2
        simp [setT, lookupT, h]
      · simp [setT, hk, lookupT, hk2, ih]

theorem lookupT_delT_self (m : Targets) (id : Nat) :
    lookupT (delT m id) id = none := by
  induction m with
  | nil => simp [delT, lookupT]
  | cons p rest ih =>
    obtain ⟨k, v⟩ := p
    by_cases hk : k = id
    · simp [delT, hk, ih]
    · simp [delT, hk, lookupT, ih]

theorem lookupT_delT_ne {k id : Nat} (m : Targets) (h : k ≠ id) :
    lookupT (delT m id) k = lookupT m k := by
  induction m with
  | nil => simp [delT, lookupT]
  | cons p rest ih =>
    obtain ⟨k', v⟩ := p
    by_cases hk : k' = id
    · subst hk
      simp [delT, lookupT, Ne.symm h, ih]
    · by_cases hk2 : k' = k
      · subst hk2
        simp [delT, lookupT, h]
      · simp [delT, hk, lookupT, hk2, ih]

theorem digitChar_toNat {d : Nat} (h : d < 10) : (digitChar d).toNat = 48 + d := by
  interval_cases d <;> decide

theorem isDigit_digitChar {d : Nat} (h : d < 10) :
    isDigit (digitChar d) = true := by
  interval_cases d <;> decide

theorem formatUintAux_all_digits :
    ∀ fuel n, n < fuel → (formatUintAux fuel n).all isDigit = true := by
  intro fuel
  induction fuel with
  | zero => intro n h; omega
  | succ fuel ih =>
    intro n h
    by_cases h10 : n < 10
    · simp [formatUintAux, h10, isDigit_digitChar h10]
    · have hdiv : n / 10 < fuel := by
        have : n / 10 < n := Nat.div_lt_self (by omega) (by omega)
        omega
      have hmod : n % 10 < 10 := Nat.mod_lt n (by omega)
      simp [formatUintAux, h10, List.all_append, ih _ hdiv,
        isDigit_digitChar hmod]

theorem formatUintAux_ne_nil (fuel n : Nat) (h : 0 < fuel) :
    formatUintAux fuel n ≠ [] := by
  cases fuel with
  | zero => omega
  | succ fuel =>
    by_cases h10 : n < 10 <;> simp [formatUintAux, h10]

theorem foldl_formatUintAux :
    ∀ fuel n a, n < fuel →
      (formatUintAux fuel n).foldl (fun x c => x * 10 + (c.toNat - 48)) a =
        a * 10 ^ (formatUintAux fuel n).length + n := by
  intro fuel
  induction fuel with
  | zero => intro n a h; omega
  | succ fuel ih =>
    intro n a h
    by_cases h10 : n < 10
    · simp [formatUintAux, h10, digitChar_toNat h10]
    · have hdiv : n / 10 < fuel := by
        have : n / 10 < n := Nat.div_lt_self (by omega) (by omega)
        omega
      have hmod : n % 10 < 10 := Nat.mod_lt n (by omega)
      simp only [formatUintAux, if_neg h10, List.foldl_append, List.foldl,
        List.length_append, List.length, ih _ _ hdiv, digitChar_toNat hmod,
        Nat.add_sub_cancel_left]
      have hdm : n / 10 * 10 + n % 10 = n := by omega
      calc (a * 10 ^ (formatUintAux fuel (n / 10)).length + n / 10) * 10 +
            (n % 10)
          = a * (10 ^ (formatUintAux fuel (n / 10)).length * 10) +
            (n / 10 * 10 + n % 10) := by ring
        _ = a * 10 ^ ((formatUintAux fuel (n / 10)).length + 1) + n := by
            rw [hdm, pow_succ]

theorem parseUint64_formatUint {n : Nat} (h : n < 2 ^ 64) :
    parseUint64 (formatUint n) = some n := by
  have hne : formatUintAux (n + 1) n ≠ [] :=
    formatUintAux_ne_nil (n + 1) n (Nat.succ_pos n)
  have hall := formatUintAux_all_digits (n + 1) n (Nat.lt_succ_self n)
  have hval : digitsVal (formatUintAux (n + 1) n) = n := by
    have := foldl_formatUintAux (n + 1) n 0 (Nat.lt_succ_self n)
    simpa [digitsVal] using this
  have h' : n < 18446744073709551616 := by omega
  simp [parseUint64, formatUint, hne, hall, hval, h']

theorem BuildWithArgs_format {S : Nat} (h : S < 2 ^ 64) (m : Targets)
    (rest : List String) :
    BuildWithArgs m (formatUint S :: rest) =
      match getKeyRanges rest with
      | none => (m, false)
      | some rs => (setT m S rs, true) := by
  simp [BuildWithArgs, parseUint64_formatUint h]

/-- C3: `IsScheduleAllowed` returns true exactly when the in-flight
leader-operator count is strictly below the leader-schedule limit; a denied
call increments the rejection counter by exactly one and an allowed call
leaves it unchanged. -/
theorem C3_isScheduleAllowed (opCount limit counter : Nat) :
    (IsScheduleAllowed opCount limit counter).1 = decide (opCount < limit) ∧
    (IsScheduleAllowed opCount limit counter).2 =
      (if opCount < limit then counter else counter + 1) := by
  by_cases h : opCount < limit <;> simp [IsScheduleAllowed, h]

/-- C9: a failed `BuildWithArgs` call (missing store ID, unparseable store
ID, or a range that fails percent-decoding) leaves the targets map exactly
as it was: all validation happens before the single mutation. -/
theorem C9_buildWithArgs_error_no_mutation (m : Targets) (args : List String)
    (h : (BuildWithArgs m args).2 = false) : (BuildWithArgs m args).1 = m := by
  cases args with
  | nil => rfl
  | cons a0 rest =>
    cases hp : parseUint64 a0 with
    | none => simp [BuildWithArgs, hp]
    | some id =>
      cases hg : getKeyRanges rest with
      | none => simp [BuildWithArgs, hp, hg]
      | some rs => simp [BuildWithArgs, hp, hg] at h

theorem C9_buildWithArgs_error_no_mutation_witness :
    (BuildWithArgs [(2, [⟨"a", "b"⟩])] ["x", "c", "d"]).2 = false ∧
    (BuildWithArgs [(2, [⟨"a", "b"⟩])] ["x", "c", "d"]).1 =
      [(2, [⟨"a", "b"⟩])] :=
  ⟨by decide, C9_buildWithArgs_error_no_mutation _ _ (by decide)⟩

/-- C6: when the first argument parses as a store ID and at most one range
argument follows (zero complete pairs; a lone leftover is dropped without
being decoded), `BuildWithArgs` succeeds and sets that store's range list to
the single whole-keyspace sentinel range. -/
theorem C6_sentinel_default {m : Targets} {a0 : String} {rest : List String}
    {S : Nat} (hparse : parseUint64 a0 = some S) (hlen : rest.length ≤ 1) :
    BuildWithArgs m (a0 :: rest) = (setT m S [⟨"", ""⟩], true) ∧
    lookupT (BuildWithArgs m (a0 :: rest)).1 S = some [⟨"", ""⟩] := by
  have hg : getKeyRanges rest = some [⟨"", ""⟩] := by
    match rest with
    | [] => rfl
    | [x] => rfl
    | x :: y :: r => simp at hlen
  refine ⟨by simp [BuildWithArgs, hparse, hg], ?_⟩
  simp [BuildWithArgs, hparse, hg, lookupT_setT_self]

theorem C6_sentinel_default_witness :
    parseUint64 "7" = some 7 ∧ (["%bad"] : List String).length ≤ 1 ∧
    BuildWithArgs [] ["7", "%bad"] = ([(7, [⟨"", ""⟩])], true) ∧
    lookupT (BuildWithArgs [] ["7", "%bad"]).1 7 = some [⟨"", ""⟩] :=
  ⟨by decide, by decide,
    (C6_sentinel_default (by decide) (by decide)).1,
    (C6_sentinel_default (by decide) (by decide)).2⟩

/-- C5: two successive `BuildWithArgs` calls whose first arguments both
parse to the same store ID `S` leave the entry for `S` exactly at the range
list decoded from the second argument list — identical to a single call
with the second list alone — and every other store's entry is untouched. -/
theorem C5_range_replacement {m m1 m2 : Targets} {a1 a2 : String}
    {r1 r2 : List String} {S : Nat} {b1 : Bool}
    (h1 : parseUint64 a1 = some S) (h2 : parseUint64 a2 = some S)
    (hc1 : BuildWithArgs m (a1 :: r1) = (m1, b1))
    (hc2 : BuildWithArgs m1 (a2 :: r2) = (m2, true)) :
    ∃ rs2, getKeyRanges r2 = some rs2 ∧
      lookupT m2 S = some rs2 ∧
      BuildWithArgs m (a2 :: r2) = (setT m S rs2, true) ∧
      lookupT (setT m S rs2) S = lookupT m2 S ∧
      ∀ k, k ≠ S → lookupT m2 k = lookupT m k ∧
        lookupT (setT m S rs2) k = lookupT m k := by
  have hm1 : ∀ k, k ≠ S → lookupT m1 k = lookupT m k := by
    intro k hk
    cases hg1 : getKeyRanges r1 with
    | none =>
      have : m1 = m := by
        have := hc1
        simp [BuildWithArgs, h1, hg1] at this
        exact this.1.symm
      rw [this]
    | some rs1 =>
      have : m1 = setT m S rs1 := by
        have := hc1
        simp [BuildWithArgs, h1, hg1] at this
        exact this.1.symm
      rw [this, lookupT_setT_ne m rs1 hk]
  cases hg2 : getKeyRanges r2 with
  | none => simp [BuildWithArgs, h2, hg2] at hc2
  | some rs2 =>
    have hm2 : m2 = setT m1 S rs2 := by
      have := hc2
      simp [BuildWithArgs, h2, hg2] at this
      exact this.symm
    refine ⟨rs2, rfl, ?_, ?_, ?_, ?_⟩
    · rw [hm2, lookupT_setT_self]
    · simp [BuildWithArgs, h2, hg2]
    · rw [hm2, lookupT_setT_self, lookupT_setT_self]
    · intro k hk
      refine ⟨?_, lookupT_setT_ne m rs2 hk⟩
      rw [hm2, lookupT_setT_ne m1 rs2 hk]
      exact hm1 k hk

theorem C5_range_replacement_witness :
    parseUint64 "5" = some 5 ∧
    BuildWithArgs [(9, [⟨"x", "y"⟩])] ["5", "a", "b"] =
      ([(9, [⟨"x", "y"⟩]), (5, [⟨"a", "b"⟩])], true) ∧
    BuildWithArgs [(9, [⟨"x", "y"⟩]), (5, [⟨"a", "b"⟩])] ["5", "c", "d"] =
      ([(9, [⟨"x", "y"⟩]), (5, [⟨"c", "d"⟩])], true) ∧
    ∃ rs2, getKeyRanges ["c", "d"] = some rs2 ∧
      lookupT [(9, [⟨"x", "y"⟩]), (5, [⟨"c", "d"⟩])] 5 = some rs2 ∧
      BuildWithArgs [(9, [⟨"x", "y"⟩])] ["5", "c", "d"] =
        (setT [(9, [⟨"x", "y"⟩])] 5 rs2, true) ∧
      lookupT (setT [(9, [⟨"x", "y"⟩])] 5 rs2) 5 =
        lookupT [(9, [⟨"x", "y"⟩]), (5, [⟨"c", "d"⟩])] 5 ∧
      ∀ k, k ≠ 5 →
        lookupT [(9, [⟨"x", "y"⟩]), (5, [⟨"c", "d"⟩])] k =
          lookupT [(9, [⟨"x", "y"⟩])] k ∧
        lookupT (setT [(9, [⟨"x", "y"⟩])] 5 rs2) k =
          lookupT [(9, [⟨"x", "y"⟩])] k :=
  ⟨by decide, by decide, by decide,
    @C5_range_replacement [(9, [⟨"x", "y"⟩])]
      [(9, [⟨"x", "y"⟩]), (5, [⟨"a", "b"⟩])]
      [(9, [⟨"x", "y"⟩]), (5, [⟨"c", "d"⟩])]
      "5" "5" ["a", "b"] ["c", "d"] 5 true
      (by decide) (by decide) (by decide) (by decide)⟩

theorem yieldOp_fst {orc : ClusterOracle} {p : Nat × List KeyRange}
    {q : Nat × TransferOp} (h : yieldOp orc p = some q) : q.1 = p.1 := by
  unfold yieldOp at h
  cases hr : orc.selectRegion p.1 p.2 with
  | none => simp [hr] at h
  | some region =>
    cases ht : orc.pickTarget region with
    | none => simp [hr, ht] at h
    | some target =>
      by_cases hc : orc.createOk region target = true
      · simp [hr, ht, hc] at h
        simp [← h]
      · simp [hr, ht, hc] at h

theorem countP_filterMap_yieldOp (orc : ClusterOracle) (id : Nat) :
    ∀ ts : Targets,
      (ts.filterMap (yieldOp orc)).countP (fun p => decide (p.1 = id)) ≤
        ts.countP (fun p => decide (p.1 = id)) := by
  intro ts
  induction ts with
  | nil => simp
  | cons hd rest ih =>
    cases hy : yieldOp orc hd with
    | none =>
      rw [List.filterMap_cons_none hy, List.countP_cons]
      omega
    | some q =>
      have hq := yieldOp_fst hy
      rw [List.filterMap_cons_some hy, List.countP_cons, List.countP_cons, hq]
      omega

/-- C4: one `Schedule` tick emits at most one operator per store present in
the targets map, the output length is at most the number of configured
stores, and a tick where no store yields a valid operator returns the empty
sequence (the return type carries no error at all). -/
theorem C4_schedule_per_store (orc : ClusterOracle) (st : SchedState)
    (hnodup : (st.targets.map Prod.fst).Nodup) :
    (Schedule orc st).1.length ≤ st.targets.length ∧
    (∀ id, (Schedule orc st).1.countP (fun p => decide (p.1 = id)) ≤ 1) ∧
    ((∀ p ∈ st.targets, yieldOp orc p = none) → (Schedule orc st).1 = []) := by
  refine ⟨List.length_filterMap_le _ _, ?_, ?_⟩
  · intro id
    have h1 := countP_filterMap_yieldOp orc id st.targets
    have h2 : st.targets.countP (fun p => decide (p.1 = id)) =
        (st.targets.map Prod.fst).count id := by
      rw [List.count, List.countP_map]
      congr 1
    have h3 : (st.targets.map Prod.fst).count id ≤ 1 :=
      List.nodup_iff_count_le_one.mp hnodup id
    simp only [Schedule]
    omega
  · intro hall
    simp only [Schedule]
    exact List.filterMap_eq_nil_iff.mpr hall

theorem C4_schedule_per_store_witness :
    ((([(1, [⟨"a", "m"⟩]), (2, [⟨"", ""⟩])] : Targets).map Prod.fst).Nodup) ∧
    ((Schedule ⟨fun i _ => if i = 1 then some 10 else none, fun _ => some 7,
          fun _ _ => true⟩
        ⟨[(1, [⟨"a", "m"⟩]), (2, [⟨"", ""⟩])], [], [], none, 0⟩).1.length ≤
        ([(1, [⟨"a", "m"⟩]), (2, [⟨"", ""⟩])] : Targets).length ∧
      (∀ id, (Schedule ⟨fun i _ => if i = 1 then some 10 else none,
            fun _ => some 7, fun _ _ => true⟩
          ⟨[(1, [⟨"a", "m"⟩]), (2, [⟨"", ""⟩])], [], [], none,
            0⟩).1.countP (fun p => decide (p.1 = id)) ≤ 1) ∧
      ((∀ p ∈ ([(1, [⟨"a", "m"⟩]), (2, [⟨"", ""⟩])] : Targets),
          yieldOp ⟨fun i _ => if i = 1 then some 10 else none, fun _ => some 7,
            fun _ _ => true⟩ p = none) →
        (Schedule ⟨fun i _ => if i = 1 then some 10 else none, fun _ => some 7,
            fun _ _ => true⟩
          ⟨[(1, [⟨"a", "m"⟩]), (2, [⟨"", ""⟩])], [], [], none, 0⟩).1 = [])) :=
  ⟨by decide,
    C4_schedule_per_store
      ⟨fun i _ => if i = 1 then some 10 else none, fun _ => some 7,
        fun _ _ => true⟩
      ⟨[(1, [⟨"a", "m"⟩]), (2, [⟨"", ""⟩])], [], [], none, 0⟩ (by decide)⟩

theorem prepareLoop_spec (pe : Nat → Option String) :
    ∀ (es : List (Nat × List KeyRange)) (st : SchedState)
      (res : Option String),
      prepareLoop pe es st res =
        ({ st with pauseLog := st.pauseLog ++ es.map Prod.fst },
         match lastError pe (es.map Prod.fst) with
         | some e => some e
         | none => res) := by
  intro es
  induction es with
  | nil => intro st res; simp [prepareLoop, lastError]
  | cons p rest ih =>
    intro st res
    obtain ⟨id, v⟩ := p
    rw [prepareLoop, ih]
    cases hl : lastError pe (rest.map Prod.fst) with
    | some e => simp [List.map, lastError, hl]
    | none => cases hpe : pe id <;> simp [List.map, lastError, hl, hpe]

theorem lastError_eq_none (pe : Nat → Option String) :
    ∀ ids : List Nat, (lastError pe ids = none ↔ ∀ id ∈ ids, pe id = none) := by
  intro ids
  induction ids with
  | nil => simp [lastError]
  | cons id rest ih =>
    cases hl : lastError pe rest with
    | some e =>
      simp only [lastError, hl]
      constructor
      · intro h; exact absurd h (by simp)
      · intro h
        have : lastError pe rest = none := ih.mpr fun i hi => h i (by simp [hi])
        rw [hl] at this; exact this
    | none =>
      simp only [lastError, hl]
      constructor
      · intro h i hi
        rcases List.mem_cons.mp hi with h1 | h2
        · rw [h1]; exact h
        · exact ih.mp hl i h2
      · intro h; exact h id (by simp)

/-- C7: `PrepareConfig` issues one `PauseLeaderTransfer` call for every
store in the targets map, in iteration order and regardless of earlier
failures, and returns the error of the last failing pause call — `none`
exactly when every pause call succeeded. -/
theorem C7_prepareConfig (pe : Nat → Option String) (st : SchedState) :
    (PrepareConfig pe st).1.pauseLog =
      st.pauseLog ++ st.targets.map Prod.fst ∧
    (PrepareConfig pe st).1.targets = st.targets ∧
    (PrepareConfig pe st).1.resumeLog = st.resumeLog ∧
    (PrepareConfig pe st).2 = lastError pe (st.targets.map Prod.fst) ∧
    ((PrepareConfig pe st).2 = none ↔
      ∀ id ∈ st.targets.map Prod.fst, pe id = none) := by
  have h := prepareLoop_spec pe st.targets st none
  have h2 : (PrepareConfig pe st).2 = lastError pe (st.targets.map Prod.fst) := by
    rw [PrepareConfig, h]
    cases lastError pe (st.targets.map Prod.fst) <;> rfl
  refine ⟨?_, ?_, ?_, h2, ?_⟩
  · rw [PrepareConfig, h]
  · rw [PrepareConfig, h]
  · rw [PrepareConfig, h]
  · rw [h2]; exact lastError_eq_none pe _

theorem cleanLoop_frame :
    ∀ (es : List (Nat × List KeyRange)) (st : SchedState),
      (cleanLoop es st).targets = st.targets ∧
      (cleanLoop es st).pauseLog = st.pauseLog ∧
      (cleanLoop es st).resumeLog = st.resumeLog ++ es.map Prod.fst := by
  intro es
  induction es with
  | nil => intro st; simp [cleanLoop]
  | cons p rest ih =>
    intro st
    obtain ⟨id, v⟩ := p
    have := ih { st with resumeLog := st.resumeLog ++ [id] }
    simpa [cleanLoop] using this

/-- C10: the read-side operations `Schedule`, `Clone`, `Persist`,
`EncodeConfig`, `getRanges`, `PrepareConfig` and `CleanConfig` never modify
the targets map; `getRanges` on an absent store ID returns the empty
sequence without inserting an entry. -/
theorem C10_read_ops_frame (orc : ClusterOracle) (st : SchedState)
    (id : Nat) (persistOk : Bool) (pe : Nat → Option String)
    (habs : lookupT st.targets id = none) :
    (Schedule orc st).2.targets = st.targets ∧
    (Clone st).2.targets = st.targets ∧
    (Clone st).1 = st.targets ∧
    (Persist persistOk st).1.targets = st.targets ∧
    (EncodeConfig st).2.targets = st.targets ∧
    (∀ i, (getRanges st i).2.targets = st.targets) ∧
    (PrepareConfig pe st).1.targets = st.targets ∧
    (CleanConfig st).targets = st.targets ∧
    (getRanges st id).1 = [] := by
  refine ⟨rfl, rfl, rfl, rfl, rfl, fun _ => rfl, ?_, ?_, ?_⟩
  · rw [PrepareConfig, prepareLoop_spec]
  · exact (cleanLoop_frame st.targets st).1
  · simp [getRanges, habs, flattenRanges]

theorem C10_read_ops_frame_witness :
    lookupT ([(4, [⟨"a", "b"⟩])] : Targets) 9 = none ∧
    ((Schedule ⟨fun _ _ => none, fun _ => none, fun _ _ => false⟩
        ⟨[(4, [⟨"a", "b"⟩])], [], [], none, 0⟩).2.targets =
        [(4, [⟨"a", "b"⟩])] ∧
      (Clone ⟨[(4, [⟨"a", "b"⟩])], [], [], none, 0⟩).2.targets =
        [(4, [⟨"a", "b"⟩])] ∧
      (Clone ⟨[(4, [⟨"a", "b"⟩])], [], [], none, 0⟩).1 =
        [(4, [⟨"a", "b"⟩])] ∧
      (Persist true ⟨[(4, [⟨"a", "b"⟩])], [], [], none, 0⟩).1.targets =
        [(4, [⟨"a", "b"⟩])] ∧
      (EncodeConfig ⟨[(4, [⟨"a", "b"⟩])], [], [], none, 0⟩).2.targets =
        [(4, [⟨"a", "b"⟩])] ∧
      (∀ i, (getRanges ⟨[(4, [⟨"a", "b"⟩])], [], [], none, 0⟩ i).2.targets =
        [(4, [⟨"a", "b"⟩])]) ∧
      (PrepareConfig (fun _ => none)
          ⟨[(4, [⟨"a", "b"⟩])], [], [], none, 0⟩).1.targets =
        [(4, [⟨"a", "b"⟩])] ∧
      (CleanConfig ⟨[(4, [⟨"a", "b"⟩])], [], [], none, 0⟩).targets =
        [(4, [⟨"a", "b"⟩])] ∧
      (getRanges ⟨[(4, [⟨"a", "b"⟩])], [], [], none, 0⟩ 9).1 = []) :=
  ⟨by decide,
    C10_read_ops_frame ⟨fun _ _ => none, fun _ => none, fun _ _ => false⟩
      ⟨[(4, [⟨"a", "b"⟩])], [], [], none, 0⟩ 9 true (fun _ => none)
      (by decide)⟩

/-- C8: a delete request for a store ID that parses but is not present in
the targets map reports the "config does not exist" error and returns the
state completely unchanged: no map change, no resume call, no persistence
attempt. -/
theorem C8_delete_nonexistent {idStr : String} {S : Nat} {persistOk : Bool}
    {st : SchedState} (hparse : parseUint64 idStr = some S)
    (habs : lookupT st.targets S = none) :
    deleteConfig idStr persistOk st = (st, .notFound) := by
  simp [deleteConfig, hparse, habs]

theorem C8_delete_nonexistent_witness :
    parseUint64 "3" = some 3 ∧
    lookupT ([(4, [⟨"a", "b"⟩])] : Targets) 3 = none ∧
    deleteConfig "3" false ⟨[(4, [⟨"a", "b"⟩])], [1, 4], [1], some [], 2⟩ =
      (⟨[(4, [⟨"a", "b"⟩])], [1, 4], [1], some [], 2⟩, .notFound) :=
  ⟨by decide, by decide,
    @C8_delete_nonexistent "3" 3 false
      ⟨[(4, [⟨"a", "b"⟩])], [1, 4], [1], some [], 2⟩ (by decide) (by decide)⟩

theorem updateFinish_persistErr {id : Nat} {args : List String}
    {persistOk : Bool} {st : SchedState}
    (h : (updateFinish id args persistOk st).2 = .persistErr) :
    (updateFinish id args persistOk st).1 =
      { st with
          targets := delT (BuildWithArgs st.targets args).1 id,
          resumeLog := st.resumeLog ++ [id],
          persistCalls := st.persistCalls + 1 } := by
  cases hb : (BuildWithArgs st.targets args).2
  · simp [updateFinish, hb] at h
  · cases persistOk
    · simp [updateFinish, hb, Persist]
    · simp [updateFinish, hb, Persist] at h

/-- C1 (amended): when an update request on store `S` passes `BuildWithArgs`
but the durable persist fails, the handler deletes the in-memory entry for
`S` outright — absent after the handler returns whether or not `S` was
configured before — and issues a resume for `S` unconditionally, even when
the update had not newly paused `S` (a pause is issued only when `S` was not
yet configured). The durable snapshot is unchanged. -/
theorem C1_update_persist_failure {inp : UpdateInput}
    {pauseOk persistOk : Bool} {st : SchedState} {S : Nat}
    (hid : inp.storeId = some S)
    (hres : (updateConfig inp pauseOk persistOk st).2 = .persistErr) :
    lookupT (updateConfig inp pauseOk persistOk st).1.targets S = none ∧
    (updateConfig inp pauseOk persistOk st).1.resumeLog =
      st.resumeLog ++ [S] ∧
    (updateConfig inp pauseOk persistOk st).1.pauseLog =
      (if (lookupT st.targets S).isSome then st.pauseLog
       else st.pauseLog ++ [S]) ∧
    (updateConfig inp pauseOk persistOk st).1.persisted = st.persisted := by
  by_cases hex : (lookupT st.targets S).isSome
  · simp only [updateConfig, hid, hex, if_pos] at hres ⊢
    rw [updateFinish_persistErr hres]
    simp [hex, lookupT_delT_self]
  · simp [updateConfig, hid, hex] at hres ⊢
    cases pauseOk
    · simp at hres
    · simp only [if_true] at hres ⊢
      rw [updateFinish_persistErr hres]
      simp [hex, lookupT_delT_self]

/-- C1 counterexample: store 1 is configured with ranges `[("a","b")]` (a
reachable state: one successful update); a second update with new ranges
hits a persist failure. The claim says the entry reverts to its old value
(present, `[("a","b")]`) and that no resume is issued since the update did
not newly pause store 1; the code instead deletes the entry and issues a
resume without a matching pause. -/
theorem C1_counterexample :
    (updateConfig ⟨some 1, some ["c", "d"]⟩ true false
        (updateConfig ⟨some 1, some ["a", "b"]⟩ true true initState).1).2 =
      .persistErr ∧
    lookupT (updateConfig ⟨some 1, some ["a", "b"]⟩ true true
        initState).1.targets 1 = some [⟨"a", "b"⟩] ∧
    lookupT (updateConfig ⟨some 1, some ["c", "d"]⟩ true false
        (updateConfig ⟨some 1, some ["a", "b"]⟩ true true
          initState).1).1.targets 1 = none ∧
    (updateConfig ⟨some 1, some ["c", "d"]⟩ true false
        (updateConfig ⟨some 1, some ["a", "b"]⟩ true true
          initState).1).1.pauseLog =
      (updateConfig ⟨some 1, some ["a", "b"]⟩ true true
        initState).1.pauseLog ∧
    (updateConfig ⟨some 1, some ["c", "d"]⟩ true false
        (updateConfig ⟨some 1, some ["a", "b"]⟩ true true
          initState).1).1.resumeLog =
      (updateConfig ⟨some 1, some ["a", "b"]⟩ true true
        initState).1.resumeLog ++ [1] := by
  decide

theorem C1_update_persist_failure_witness :
    (⟨some 2, some ["c", "d"]⟩ : UpdateInput).storeId = some 2 ∧
    (updateConfig ⟨some 2, some ["c", "d"]⟩ true false initState).2 =
      .persistErr ∧
    (lookupT (updateConfig ⟨some 2, some ["c", "d"]⟩ true false
        initState).1.targets 2 = none ∧
      (updateConfig ⟨some 2, some ["c", "d"]⟩ true false
        initState).1.resumeLog = initState.resumeLog ++ [2] ∧
      (updateConfig ⟨some 2, some ["c", "d"]⟩ true false
        initState).1.pauseLog =
        (if (lookupT initState.targets 2).isSome then initState.pauseLog
         else initState.pauseLog ++ [2]) ∧
      (updateConfig ⟨some 2, some ["c", "d"]⟩ true false
        initState).1.persisted = initState.persisted) :=
  ⟨by decide, by decide,
    @C1_update_persist_failure ⟨some 2, some ["c", "d"]⟩ true false
      initState 2 (by decide) (by decide)⟩

theorem updateFinish_spec {id : Nat} {args : List String} {st : SchedState}
    (persistOk : Bool) :
    updateFinish id args persistOk st =
      (if (BuildWithArgs st.targets args).2 then
        if persistOk then
          ({ st with
              targets := (BuildWithArgs st.targets args).1,
              persisted := some (BuildWithArgs st.targets args).1,
              persistCalls := st.persistCalls + 1 }, .ok)
        else
          ({ st with
              targets := delT (BuildWithArgs st.targets args).1 id,
              resumeLog := st.resumeLog ++ [id],
              persistCalls := st.persistCalls + 1 }, .persistErr)
      else ({ st with resumeLog := st.resumeLog ++ [id] }, .buildErr)) := by
  cases hb : (BuildWithArgs st.targets args).2 <;> cases persistOk <;>
    simp [updateFinish, Persist, hb]

theorem BuildWithArgs_format_some {S : Nat} (hS : S < 2 ^ 64) {m : Targets}
    {rest : List String} {rsv : List KeyRange}
    (hg : getKeyRanges rest = some rsv) :
    BuildWithArgs m (formatUint S :: rest) = (setT m S rsv, true) := by
  rw [BuildWithArgs_format hS, hg]

theorem BuildWithArgs_format_none {S : Nat} (hS : S < 2 ^ 64) {m : Targets}
    {rest : List String} (hg : getKeyRanges rest = none) :
    BuildWithArgs m (formatUint S :: rest) = (m, false) := by
  rw [BuildWithArgs_format hS, hg]

theorem updateFinish_buildFail {id : Nat} {args : List String}
    {persistOk : Bool} {st : SchedState}
    (hb : (BuildWithArgs st.targets args).2 = false) :
    updateFinish id args persistOk st =
      ({ st with resumeLog := st.resumeLog ++ [id] }, .buildErr) := by
  simp [updateFinish, hb]

theorem updateFinish_ok {id : Nat} {args : List String} {st : SchedState}
    (hb : (BuildWithArgs st.targets args).2 = true) :
    updateFinish id args true st =
      ({ st with
          targets := (BuildWithArgs st.targets args).1,
          persisted := some (BuildWithArgs st.targets args).1,
          persistCalls := st.persistCalls + 1 }, .ok) := by
  simp [updateFinish, Persist, hb]

theorem updateFinish_persistFail {id : Nat} {args : List String}
    {st : SchedState} (hb : (BuildWithArgs st.targets args).2 = true) :
    updateFinish id args false st =
      ({ st with
          targets := delT (BuildWithArgs st.targets args).1 id,
          resumeLog := st.resumeLog ++ [id],
          persistCalls := st.persistCalls + 1 }, .persistErr) := by
  simp [updateFinish, Persist, hb]

theorem updateConfig_some_ex {S : Nat} {rs : Option (List String)}
    {pOk perOk : Bool} {st : SchedState}
    (hex : (lookupT st.targets S).isSome = true) :
    updateConfig ⟨some S, rs⟩ pOk perOk st =
      updateFinish S (formatUint S :: updateArgsTail ⟨some S, rs⟩ true S
        st.targets) perOk st := by
  simp [updateConfig, hex]

theorem updateConfig_some_new {S : Nat} {rs : Option (List String)}
    {perOk : Bool} {st : SchedState}
    (hex : (lookupT st.targets S).isSome = false) :
    updateConfig ⟨some S, rs⟩ true perOk st =
      updateFinish S (formatUint S :: updateArgsTail ⟨some S, rs⟩ false S
        st.targets) perOk { st with pauseLog := st.pauseLog ++ [S] } := by
  simp [updateConfig, hex]

theorem count_inv_update {S : Nat} (hS : S < 2 ^ 64) {st : SchedState}
    {rs : Option (List String)} {pOk perOk : Bool}
    (hinv : st.pauseLog.count S =
      st.resumeLog.count S +
        (if (lookupT st.targets S).isSome then 1 else 0))
    (hgood : goodStep S st (.update rs pOk perOk) = true) :
    (updateConfig ⟨some S, rs⟩ pOk perOk st).1.pauseLog.count S =
      (updateConfig ⟨some S, rs⟩ pOk perOk st).1.resumeLog.count S +
        (if (lookupT (updateConfig ⟨some S, rs⟩ pOk perOk st).1.targets
            S).isSome then 1 else 0) := by
  cases hex : (lookupT st.targets S).isSome with
  | true =>
    rw [hex, if_pos rfl] at hinv
    have hne : (updateConfig ⟨some S, rs⟩ pOk perOk st).2 ≠ .buildErr := by
      simp [goodStep, hex] at hgood
      intro hc
      rw [hc] at hgood
      simp at hgood
    rw [updateConfig_some_ex hex] at hne ⊢
    cases hg : getKeyRanges (updateArgsTail ⟨some S, rs⟩ true S st.targets) with
    | none =>
      rw [updateFinish_buildFail
        (by rw [BuildWithArgs_format_none hS hg])] at hne
      simp at hne
    | some rsv =>
      have hb : (BuildWithArgs st.targets (formatUint S ::
          updateArgsTail ⟨some S, rs⟩ true S st.targets)).2 = true := by
        rw [BuildWithArgs_format_some hS hg]
      cases perOk
      · rw [updateFinish_persistFail hb]
        simp [BuildWithArgs_format_some hS hg, lookupT_delT_self,
          List.count_append, hinv]
      · rw [updateFinish_ok hb]
        simp [BuildWithArgs_format_some hS hg, lookupT_setT_self,
          List.count_append, hinv]
  | false =>
    have hpOk : pOk = true := by
      simp [goodStep, hex] at hgood
      exact hgood
    subst hpOk
    rw [hex, if_neg (by simp)] at hinv
    rw [updateConfig_some_new hex]
    cases hg : getKeyRanges
        (updateArgsTail ⟨some S, rs⟩ false S st.targets) with
    | none =>
      rw [updateFinish_buildFail (by rw [BuildWithArgs_format_none hS hg])]
      simp [hex, List.count_append, hinv]
    | some rsv =>
      have hb : (BuildWithArgs
          ({ st with pauseLog := st.pauseLog ++ [S] } : SchedState).targets
          (formatUint S ::
            updateArgsTail ⟨some S, rs⟩ false S st.targets)).2 = true := by
        show (BuildWithArgs st.targets _).2 = true
        rw [BuildWithArgs_format_some hS hg]
      cases perOk
      · rw [updateFinish_persistFail hb]
        simp [BuildWithArgs_format_some hS hg, lookupT_delT_self,
          List.count_append, hinv]
      · rw [updateFinish_ok hb]
        simp [BuildWithArgs_format_some hS hg, lookupT_setT_self,
          List.count_append, hinv]

theorem count_inv_delete {S : Nat} (hS : S < 2 ^ 64) {st : SchedState}
    {perOk : Bool}
    (hinv : st.pauseLog.count S =
      st.resumeLog.count S +
        (if (lookupT st.targets S).isSome then 1 else 0)) :
    (deleteConfig (formatUint S) perOk st).1.pauseLog.count S =
      (deleteConfig (formatUint S) perOk st).1.resumeLog.count S +
        (if (lookupT (deleteConfig (formatUint S) perOk st).1.targets
            S).isSome then 1 else 0) := by
  cases hl : lookupT st.targets S with
  | none =>
    simp only [deleteConfig, parseUint64_formatUint hS, hl]
    simpa [hl] using hinv
  | some ranges =>
    rw [hl] at hinv
    simp only [Option.isSome_some, if_pos] at hinv
    cases perOk
    · simp [deleteConfig, parseUint64_formatUint hS, hl, Persist,
        lookupT_setT_self, List.count_append, hinv]
    · simp [deleteConfig, parseUint64_formatUint hS, hl, Persist,
        lookupT_delT_self, List.count_append, hinv]

theorem count_inv_runOps {S : Nat} (hS : S < 2 ^ 64) :
    ∀ (ops : List EvictOp) (st : SchedState),
      goodTrace S st ops = true →
      st.pauseLog.count S = st.resumeLog.count S +
        (if (lookupT st.targets S).isSome then 1 else 0) →
      (runOps S st ops).pauseLog.count S =
        (runOps S st ops).resumeLog.count S +
          (if (lookupT (runOps S st ops).targets S).isSome then 1 else 0) := by
  intro ops
  induction ops with
  | nil => intro st _ h; exact h
  | cons op rest ih =>
    intro st hg hinv
    rw [goodTrace] at hg
    have h12 := (Bool.and_eq_true _ _).mp hg
    have h1 := h12.1
    have h2 := h12.2
    rw [runOps]
    apply ih _ h2
    cases op with
    | update rs pOk perOk => exact count_inv_update hS hinv h1
    | delete perOk => exact count_inv_delete hS hinv

/-- C2 (amended): for any sequence of control-plane update/delete operations
on store `S` starting from the empty config, provided no operation hits one
of the two unmatched-call paths — a pause call that fails, or a
`BuildWithArgs` failure on an already-configured store (which issues a
resume with no matching pause) — the number of pause calls issued for `S`
minus resume calls issued for `S` is 1 if `S` is configured at the end and
0 otherwise. -/
theorem C2_pause_resume_symmetry {S : Nat} (hS : S < 2 ^ 64)
    {ops : List EvictOp} (hgood : goodTrace S initState ops = true) :
    (runOps S initState ops).pauseLog.count S =
      (runOps S initState ops).resumeLog.count S +
        (if (lookupT (runOps S initState ops).targets S).isSome then 1
         else 0) :=
  count_inv_runOps hS ops initState hgood (by simp [initState, lookupT])

/-- C2 counterexample: configure store 5 with a successful update, then
issue an update for store 5 whose ranges fail percent-decoding. The failed
update issues a resume although it issued no pause, so afterwards store 5
is still configured while pause count minus resume count is 0 — the claim
demands 1. A second run shows the other unmatched path: a single update
whose pause call fails leaves store 5 unconfigured with one issued pause
call and no resume — difference 1 where the claim demands 0. -/
theorem C2_counterexample :
    (lookupT (runOps 5 initState
        [.update (some ["a", "b"]) true true,
         .update (some ["%", "x"]) true true]).targets 5).isSome = true ∧
    (runOps 5 initState
        [.update (some ["a", "b"]) true true,
         .update (some ["%", "x"]) true true]).pauseLog.count 5 =
      (runOps 5 initState
        [.update (some ["a", "b"]) true true,
         .update (some ["%", "x"]) true true]).resumeLog.count 5 ∧
    lookupT (runOps 5 initState
        [.update (some ["a", "b"]) false true]).targets 5 = none ∧
    (runOps 5 initState
        [.update (some ["a", "b"]) false true]).pauseLog.count 5 =
      (runOps 5 initState
          [.update (some ["a", "b"]) false true]).resumeLog.count 5 + 1 := by
  decide

theorem C2_pause_resume_symmetry_witness :
    (5 : Nat) < 2 ^ 64 ∧
    goodTrace 5 initState
      [.update (some ["a", "b"]) true true, .delete true,
       .update none true false] = true ∧
    (runOps 5 initState
        [.update (some ["a", "b"]) true true, .delete true,
         .update none true false]).pauseLog.count 5 =
      (runOps 5 initState
          [.update (some ["a", "b"]) true true, .delete true,
           .update none true false]).resumeLog.count 5 +
        (if (lookupT (runOps 5 initState
            [.update (some ["a", "b"]) true true, .delete true,
             .update none true false]).targets 5).isSome then 1 else 0) :=
  ⟨by decide, by decide,
    @C2_pause_resume_symmetry 5 (by decide)
      [.update (some ["a", "b"]) true true, .delete true,
       .update none true false] (by decide)⟩
